import Mathlib

/-!
Shallow embedding of the `wxcentral` data-mapping layer (`src/lib/DbModel.ts`,
`src/models/Observation.ts`).

JavaScript runtime values are modelled by `Value`; JavaScript objects
(string-keyed, insertion-ordered, later assignments overwriting earlier ones
in place) are modelled by association lists together with `objSet`/`objMerge`,
which reproduce JS property-assignment and spread semantics.

Database effects (`db.conn.run`, `db.conn.each`) are modelled by returning the
statement that would be executed (SQL text plus named-parameter binding) so
that theorems can speak about the exact SQL and bindings the code produces;
a thrown JS exception is modelled by `Except.error` carrying the message.
-/

set_option maxRecDepth 4000

/-- A JavaScript runtime value, as far as this layer manipulates them. -/
inductive Value where
  | num (n : Int)
  | str (s : String)
  | boolV (b : Bool)
  | null
  | undefined
  | arr (vs : List Value)
  | obj (fields : List (String × Value))

/-- JS truthiness on `Value` (`0`, `""`, `false`, `null`, `undefined` are falsy). -/
def Value.falsy : Value → Bool
  | .num n => n = 0
  | .str s => s = ""
  | .boolV b => !b
  | .null => true
  | .undefined => true
  | .arr _ => false
  | .obj _ => false

/-- A JavaScript object: ordered association list of string keys to values. -/
abbrev Obj := List (String × Value)

/-- First value bound to key `k` in an association list (JS property lookup;
JS object keys are unique, so first-match is exact). -/
def alistLookup {α : Type} (k : String) : List (String × α) → Option α
  | [] => none
  | p :: t => if p.1 = k then some p.2 else alistLookup k t

/-- `o.hasOwnProperty(k)` -/
def objHas (o : Obj) (k : String) : Bool :=
  (alistLookup k o).isSome

/-- `o[k]`: property read, `undefined` when the key is absent. -/
def objGet (o : Obj) (k : String) : Value :=
  (alistLookup k o).getD .undefined

/-- `o[k] = v`: JS property assignment — an existing key keeps its position and
is overwritten, a new key is appended at the end. -/
def objSet (o : Obj) (k : String) (v : Value) : Obj :=
  if objHas o k then
    List.map (fun p => if p.1 = k then (k, v) else p) o
  else
    o ++ [(k, v)]

/-- `{ ...a, ...b }`: JS object spread, later entries overwrite earlier ones. -/
def objMerge (a b : Obj) : Obj :=
  List.foldl (fun acc p => objSet acc p.1 p.2) a b

/-- Leading and trailing whitespace removal, as JS `ToNumber` applies to
strings before parsing. -/
def jsTrim (cs : List Char) : List Char :=
  ((cs.dropWhile Char.isWhitespace).reverse.dropWhile Char.isWhitespace).reverse

/-- Parse a non-empty all-digit character list as a natural number; anything
else is `none`. -/
def parseDigits (cs : List Char) : Option Nat :=
  if cs = [] then none
  else
    cs.foldl
      (fun acc c =>
        match acc with
        | none => none
        | some n => if c.isDigit then some (n * 10 + (c.toNat - 48)) else none)
      (some 0)

/-- JS `ToNumber` on a string, for the integer-literal strings this program
deals in (no float/hex syntax modelled); `none` models `NaN`, the
whitespace-only string coerces to `0`. -/
def jsStringToNumber (s : String) : Option Int :=
  match jsTrim s.data with
  | [] => some 0
  | '-' :: rest => (parseDigits rest).map (fun n => -(n : Int))
  | '+' :: rest => (parseDigits rest).map (fun n => (n : Int))
  | cs => (parseDigits cs).map (fun n => (n : Int))

/-- Model of JS `ToNumber` as used by `obj[key] - 0`, restricted to the value
shapes this layer receives; `none` models `NaN`. Arrays and plain objects are
conservatively modelled as `NaN` except for the empty array (which JS coerces
to `0`). -/
def toNumber : Value → Option Int
  | .num n => some n
  | .str s => jsStringToNumber s
  | .boolV b => some (if b then 1 else 0)
  | .null => some 0
  | .undefined => none
  | .arr [] => some 0
  | .arr (_ :: _) => none
  | .obj _ => none

/-- Model of JS string interpolation `${v}` for the values that reach error
messages in this layer. -/
def valueDisplay : Value → String
  | .num n => toString n
  | .str s => s
  | .boolV b => if b then "true" else "false"
  | .null => "null"
  | .undefined => "undefined"
  | .arr vs => String.intercalate "," (vs.map fun v =>
      match v with
      | .num n => toString n
      | .str s => s
      | _ => "")
  | .obj _ => "[object Object]"

/-- `ColumnTypes` enum from `DbModel.ts` (values are the strings shown). -/
inductive ColumnTypes where
  | number
  | string
  | boolean
deriving DecidableEq, Repr

/-- The string value of a `ColumnTypes` member (used in error messages). -/
def ColumnTypes.display : ColumnTypes → String
  | .number => "number"
  | .string => "string"
  | .boolean => "boolean"

/-- `ColumnDescriptor` from `DbModel.ts`. -/
structure ColumnDescriptor where
  name : String
  type : ColumnTypes
  nullable : Bool := false
  primaryKey : Bool := false
deriving DecidableEq, Repr

/-- JS template-literal stringification of a `ColumnDescriptor` object: the
source sometimes interpolates the descriptor itself (not `.name`), which JS
renders as `[object Object]`. -/
def descriptorDisplay (_ : ColumnDescriptor) : String := "[object Object]"

/-- The static side of a decorated `DbModel` subclass: `this.name`,
`_dbTable` (empty string models unset), `_dbFields`, `_dbPrimaryKey`. -/
structure ModelClass where
  className : String
  dbTable : String
  dbFields : Option (List (String × ColumnDescriptor))
  dbPrimaryKey : Option String

/-- The registered field map (empty when `_dbFields` is unset). -/
def fieldsOf (c : ModelClass) : List (String × ColumnDescriptor) :=
  c.dbFields.getD []

/-- `this._dbFields[key]` -/
def lookupField (c : ModelClass) (k : String) : Option ColumnDescriptor :=
  alistLookup k (fieldsOf c)

/-- Declared property names in declaration order (`Object.keys(_dbFields)`). -/
def fieldKeys (c : ModelClass) : List String :=
  (fieldsOf c).map Prod.fst

/-- Truthiness of `this._dbPrimaryKey` (unset or empty string is falsy). -/
def pkFalsy (c : ModelClass) : Bool :=
  match c.dbPrimaryKey with
  | none => true
  | some s => s = ""

/-- The primary-key property name, defaulting to `""` when unset. -/
def pkString (c : ModelClass) : String :=
  c.dbPrimaryKey.getD ""

/-- `_updatableFields`: declared keys minus the primary key property
(`field !== _dbPrimaryKey`). -/
def updatableFields (c : ModelClass) : List String :=
  (fieldKeys c).filter (fun f => c.dbPrimaryKey ≠ some f)

/-- A record instance: its own properties, as a JS object. -/
abbrev Inst := Obj

/-- `this[constructor._dbPrimaryKey]` (reading property `"undefined"` of the
instance when no primary key is declared, which yields `undefined`). -/
def instPk (c : ModelClass) (inst : Inst) : Value :=
  match c.dbPrimaryKey with
  | some k => objGet inst k
  | none => objGet inst "undefined"

/-- `_getUpdatableFieldsQueryObject(fields)`: `{ $key: this[key], ... }`. -/
def getUpdatableFieldsQueryObject (inst : Inst) (fields : List String) : Obj :=
  List.foldl (fun o key => objSet o ("$" ++ key) (objGet inst key)) [] fields

/-- `_verifyFields(primaryKeyRequired)` from `DbModel.ts`. -/
def verifyFields (c : ModelClass) (primaryKeyRequired : Bool) : Except String Unit :=
  if c.dbTable = "" then
    .error "[DbModel] Table name is not set"
  else if c.dbFields.isNone then
    .error "[DbModel] Field map is not set"
  else if primaryKeyRequired && pkFalsy c then
    .error "[DbModel] Primary key is not set and required for that operation"
  else if !pkFalsy c && (lookupField c (pkString c)).isNone then
    .error ("[DbModel] Primary key \"" ++ pkString c ++ "\" not found in " ++ c.dbTable)
  else
    .ok ()

/-- `mysqlCopyFromRow(row)`: for every declared field, `this[key] = row[columnName]`. -/
def mysqlCopyFromRow (c : ModelClass) (inst : Inst) (row : Obj) : Inst :=
  List.foldl (fun i p => objSet i p.1 (objGet row p.2.name)) inst (fieldsOf c)

/-- `_createThisFromRow(row)`: fresh instance hydrated from the row. -/
def createThisFromRow (c : ModelClass) (row : Obj) : Inst :=
  mysqlCopyFromRow c [] row

/-- A compiled WHERE clause: SQL fragment plus named-parameter bindings. -/
structure WhereClause where
  sql : String
  params : Obj

/-- `values[i]` for the `between` operator (property access on a non-array or
out-of-range index yields `undefined` in JS). -/
def Value.get : Value → Nat → Value
  | .arr vs, i => vs.getD i .undefined
  | _, _ => .undefined

/-- The `WHERE_OPERATORS` dispatch table from `DbModel.ts`; `none` models the
operator name not being a key of the table (`operator in WHERE_OPERATORS`). -/
def whereOperators (op : String) (field : ColumnDescriptor) (value : Value) :
    Option WhereClause :=
  if op = "eq" then
    some ⟨"`" ++ field.name ++ "` = $" ++ field.name, [("$" ++ field.name, value)]⟩
  else if op = "gte" then
    some ⟨"`" ++ field.name ++ "` >= $" ++ field.name, [("$" ++ field.name, value)]⟩
  else if op = "gt" then
    some ⟨"`" ++ field.name ++ "` > $" ++ field.name, [("$" ++ field.name, value)]⟩
  else if op = "lt" then
    some ⟨"`" ++ field.name ++ "` < $" ++ field.name, [("$" ++ field.name, value)]⟩
  else if op = "lte" then
    some ⟨"`" ++ field.name ++ "` <= $" ++ field.name, [("$" ++ field.name, value)]⟩
  else if op = "between" then
    some ⟨"`" ++ field.name ++ "` BETWEEN $" ++ field.name ++ "1 AND $" ++ field.name ++ "2",
          [("$" ++ field.name ++ "1", value.get 0), ("$" ++ field.name ++ "2", value.get 1)]⟩
  else
    none

/-- `_generateWhereCondition(field, condition)`. `className` is `this.name`
(the JS class object's `name` property, on which the array branch builds its
parameter names). Note the array branch interpolates the descriptor object
itself (rendered `[object Object]`) and never emits a closing parenthesis,
exactly as the source template literal does. -/
def generateWhereCondition (className : String) (field : ColumnDescriptor)
    (condition : Value) : Except String WhereClause :=
  match condition with
  | .arr vs =>
      .ok ⟨"`" ++ descriptorDisplay field ++ "` IN (" ++
             String.intercalate ", "
               (vs.enum.map (fun p => "$" ++ className ++ toString p.1)),
           List.foldl (fun acc p => objSet acc (className ++ toString p.1) p.2)
             [] vs.enum⟩
  | .obj kvs =>
      match kvs.head? with
      | some (op, v) =>
          match whereOperators op field v with
          | some wc => .ok wc
          | none => .error ("Unsupported comparison operator \"" ++ op ++ "\"")
      | none => .error "Unsupported comparison operator \"undefined\""
  | .null => .error "TypeError: Cannot convert undefined or null to object"
  | v => .ok ((whereOperators "eq" field v).getD ⟨"", []⟩)

/-- One iteration of the `forEach` in `_generateWhereClause`: resolve the key
against the field map, compile the condition, AND-join the fragment and
spread-merge the parameters; an unknown key throws. -/
def whereStep (c : ModelClass) (acc : WhereClause) (kv : String × Value) :
    Except String WhereClause :=
  match lookupField c kv.1 with
  | some field =>
      match generateWhereCondition c.className field kv.2 with
      | .ok wc =>
          .ok ⟨if acc.sql = "" then wc.sql else acc.sql ++ " AND " ++ wc.sql,
               objMerge acc.params wc.params⟩
      | .error e => .error e
  | none => .error ("Unknown field \"" ++ kv.1 ++ "\" on \"" ++ c.dbTable ++ "\"")

/-- `_generateWhereClause(conditions)` for a (truthy) conditions object; the
source returns `{ sql: "", params: {} }` for a falsy argument, and `selectAll`
only reaches this call with a truthy object. -/
def generateWhereClause (c : ModelClass) (conds : Obj) : Except String WhereClause :=
  List.foldlM (whereStep c) ⟨"", []⟩ conds

/-- The kind of statement handed to the storage driver. -/
inductive StmtKind where
  | insertStmt
  | updateStmt
  | selectStmt
deriving DecidableEq, Repr

/-- A statement as handed to `db.conn.run` / `db.conn.each`: SQL text plus the
named-parameter object. -/
structure Stmt where
  kind : StmtKind
  sql : String
  params : Obj

namespace DbModel

/-- `_insert()`: verify, build the INSERT over the non-primary-key fields,
execute, and (when a primary key is declared) assign `result.lastID` back onto
the instance. `lastID` models the storage-generated row id. -/
def insert (c : ModelClass) (inst : Inst) (lastID : Value) :
    Except String (Inst × Stmt) :=
  match verifyFields c false with
  | .error e => .error e
  | .ok _ =>
      let flds := updatableFields c
      let cols := flds.map (fun f => ((lookupField c f).map ColumnDescriptor.name).getD "")
      let sql := "INSERT INTO `" ++ c.dbTable ++ "` " ++
        "(`" ++ String.intercalate "`, `" cols ++ "`) VALUES " ++
        "(" ++ String.intercalate ", " (flds.map (fun f => "$" ++ f)) ++ ")"
      let inst2 := if pkFalsy c then inst else objSet inst (pkString c) lastID
      .ok (inst2, ⟨.insertStmt, sql, getUpdatableFieldsQueryObject inst flds⟩)

/-- `_update()`: verify (primary key required), build the UPDATE, execute.
The source interpolates `_dbFields[field]` (the descriptor object, rendered
`[object Object]`) instead of `.name`, uses `:field` placeholders in SET while
the parameter object is keyed `$field`, and never binds the `$<primaryKey>`
placeholder the WHERE clause references. -/
def update (c : ModelClass) (inst : Inst) : Except String (Inst × Stmt) :=
  match verifyFields c true with
  | .error e => .error e
  | .ok _ =>
      let flds := updatableFields c
      let pk := pkString c
      let pkCol := ((lookupField c pk).map descriptorDisplay).getD "undefined"
      let sql := "UPDATE `" ++ c.dbTable ++ "` SET " ++
        String.intercalate ", "
          (flds.map (fun f =>
            "`" ++ ((lookupField c f).map descriptorDisplay).getD "undefined" ++ "` = :" ++ f)) ++
        " WHERE `" ++ pkCol ++ "` = $" ++ pk
      .ok (inst, ⟨.updateStmt, sql, getUpdatableFieldsQueryObject inst flds⟩)

/-- `sync()`: dispatch on the truthiness of the instance's primary-key
property — falsy inserts, truthy updates. -/
def sync (c : ModelClass) (inst : Inst) (lastID : Value) :
    Except String (Inst × Stmt) :=
  if (instPk c inst).falsy then insert c inst lastID else update c inst

/-- `selectAll(conditions = null)`: verify, compile the WHERE clause, run the
SELECT, hydrate each row. `conditions = none` models the JS `null` default, in
which case `conditions && this._generateWhereClause(conditions)` leaves
`whereClause = null` and the subsequent `whereClause.sql` access throws a
TypeError. `rows` models the rows the driver yields without error (the source
silently skips rows that error); an `Except.error` result models a thrown
exception, in which case no statement reaches the driver. -/
def selectAll (c : ModelClass) (conditions : Option Obj) (rows : List Obj) :
    Except String (Stmt × List Inst) :=
  match verifyFields c false with
  | .error e => .error e
  | .ok _ =>
      match conditions with
      | none => .error "TypeError: Cannot read properties of null (reading sql)"
      | some conds =>
          match generateWhereClause c conds with
          | .error e => .error e
          | .ok wc =>
              let sql := "SELECT * FROM `" ++ c.dbTable ++ "`" ++
                (if wc.sql = "" then "" else " WHERE " ++ wc.sql)
              .ok (⟨.selectStmt, sql, wc.params⟩, rows.map (createThisFromRow c))

/-- The type check applied by `createFromObject` to a present, non-nullable
field: `Number` demands `!Number.isNaN(value - 0)`, `Boolean` demands a
literal boolean, `String` (and any other type) is not checked. -/
def typeValid (t : ColumnTypes) (v : Value) : Bool :=
  match t with
  | .number => (toNumber v).isSome
  | .boolean => match v with | .boolV _ => true | _ => false
  | .string => true

/-- The body of the `reduce` in `createFromObject`: one declared field's
effect on the error accumulator. A field that is present in the input and not
nullable is type-checked; a field that is absent, not nullable and not the
primary key is a missing-value failure; anything else contributes nothing. -/
def validateFieldStep (pk : Option String) (obj : Obj) (errs : List String)
    (p : String × ColumnDescriptor) : List String :=
  if objHas obj p.1 && !p.2.nullable then
    if !typeValid p.2.type (objGet obj p.1) then
      errs ++ ["Expected type " ++ p.2.type.display ++ " for column \"" ++
               p.1 ++ "\". Got: " ++ valueDisplay (objGet obj p.1)]
    else errs
  else if !objHas obj p.1 && !p.2.nullable &&
          decide (pk ≠ some p.1) then
    errs ++ ["Expected value for column \"" ++ p.1 ++ "\""]
  else errs

/-- `createFromObject(obj)`: walk the declared fields collecting validation
errors; on any error the source logs the batch and returns `null` (modelled
`Except.error` carrying the batch); otherwise copy every declared property
from the input onto a fresh instance. JS object keys are unique, so the field
list is keyed uniquely. -/
def createFromObject (c : ModelClass) (obj : Obj) : Except (List String) Inst :=
  let errors := List.foldl (validateFieldStep c.dbPrimaryKey obj) [] (fieldsOf c)
  if errors = [] then
    .ok (List.foldl (fun i p => objSet i p.1 (objGet obj p.1)) [] (fieldsOf c))
  else
    .error errors

end DbModel

/-- The primary-key derivation inside the `tableSchema` decorator: the
`Object.keys(...).find` loop assigns `primaryKey` at each key and stops at the
first key whose descriptor has `primaryKey = true`, leaving it `undefined`
when no key does. -/
def derivePrimaryKey (schema : List (String × ColumnDescriptor)) : Option String :=
  match schema with
  | [] => none
  | (k, d) :: rest => if d.primaryKey then some k else derivePrimaryKey rest

/-- The field map declared by `@tableSchema({...})` on `Observation`. -/
def observationSchema : List (String × ColumnDescriptor) :=
  [("id", ⟨"observationId", .number, false, true⟩),
   ("stationKey", ⟨"stationKey", .string, false, false⟩),
   ("stationName", ⟨"stationName", .string, false, false⟩),
   ("observationType", ⟨"observationType", .string, false, false⟩),
   ("observationTime", ⟨"observationTime", .number, false, false⟩),
   ("observationValue", ⟨"observationValue", .number, false, false⟩)]

/-- The decorated `Observation` class: `@tableName('observation')` and
`@tableSchema(observationSchema)` wrap the class in anonymous subclasses, so
the resulting class object's `name` property is the empty string. -/
def observationClass : ModelClass :=
  ⟨"", "observation", some observationSchema, derivePrimaryKey observationSchema⟩

/-- `Observation.sync()`: overwrite `observationTime` with `Date.now()` (the
`now` argument), then delegate to `DbModel.sync`. -/
def observationSync (inst : Inst) (now : Int) (lastID : Value) :
    Except String (Inst × Stmt) :=
  DbModel.sync observationClass (objSet inst "observationTime" (.num now)) lastID

/-! ## Helper lemmas about the JS object model -/

theorem alistLookup_append_single (o : Obj) (k : String) (v : Value)
    (h : alistLookup k o = none) : alistLookup k (o ++ [(k, v)]) = some v := by
  induction o with
  | nil => simp [alistLookup]
  | cons a t ih =>
      simp only [alistLookup, List.cons_append] at h ⊢
      by_cases hk : a.1 = k
      · rw [if_pos hk] at h; exact absurd h (by simp)
      · rw [if_neg hk] at h ⊢; exact ih h

theorem alistLookup_map_overwrite (o : Obj) (k : String) (v : Value)
    (h : (alistLookup k o).isSome = true) :
    alistLookup k (o.map fun p => if p.1 = k then (k, v) else p) = some v := by
  induction o with
  | nil => simp [alistLookup] at h
  | cons a t ih =>
      simp only [List.map_cons, alistLookup] at h ⊢
      by_cases hk : a.1 = k
      · rw [if_pos hk]
        simp [alistLookup]
      · rw [if_neg hk] at h ⊢
        simp only [alistLookup, if_neg hk]
        exact ih h

/-- Writing a property then reading it back yields the written value. -/
theorem objGet_objSet_self (o : Obj) (k : String) (v : Value) :
    objGet (objSet o k v) k = v := by
  unfold objSet
  by_cases h : objHas o k = true
  · rw [if_pos h]
    unfold objGet
    rw [alistLookup_map_overwrite o k v h]
    rfl
  · rw [if_neg h]
    unfold objGet objHas at *
    cases hl : alistLookup k o with
    | none => rw [alistLookup_append_single o k v hl]; rfl
    | some x => rw [hl] at h; simp at h

theorem alistLookup_append_miss (o : Obj) (k k2 : String) (v : Value)
    (h : k2 ≠ k) : alistLookup k2 (o ++ [(k, v)]) = alistLookup k2 o := by
  induction o with
  | nil =>
      simp only [List.nil_append, alistLookup]
      rw [if_neg (fun hh => h hh.symm)]
  | cons a t ih =>
      simp only [alistLookup, List.cons_append]
      by_cases hk : a.1 = k2
      · rw [if_pos hk, if_pos hk]
      · rw [if_neg hk, if_neg hk]; exact ih

theorem alistLookup_map_miss (o : Obj) (k k2 : String) (v : Value)
    (h : k2 ≠ k) :
    alistLookup k2 (o.map fun p => if p.1 = k then (k, v) else p) =
      alistLookup k2 o := by
  induction o with
  | nil => simp [alistLookup]
  | cons a t ih =>
      simp only [List.map_cons, alistLookup]
      by_cases hak : a.1 = k
      · rw [if_pos hak]
        have hne : ¬((k, v).1 = k2) := fun hh => h (hh.symm ▸ rfl)
        rw [if_neg hne, if_neg (hak ▸ hne : ¬(a.1 = k2))]
        exact ih
      · rw [if_neg hak]
        by_cases hk2 : a.1 = k2
        · rw [if_pos hk2, if_pos hk2]
        · rw [if_neg hk2, if_neg hk2]; exact ih

/-- Writing one property leaves every other property unchanged. -/
theorem objGet_objSet_ne (o : Obj) (k k2 : String) (v : Value) (h : k2 ≠ k) :
    objGet (objSet o k v) k2 = objGet o k2 := by
  unfold objSet objGet
  by_cases hh : objHas o k = true
  · rw [if_pos hh, alistLookup_map_miss o k k2 v h]
  · rw [if_neg hh, alistLookup_append_miss o k k2 v h]

/-! ## Concrete data used by the claims -/

/-- A fully populated Observation instance whose primary key is set. -/
def observationInstance : Inst :=
  [("id", .num 3), ("stationKey", .str "K"), ("stationName", .str "N"),
   ("observationType", .str "temperature"), ("observationTime", .num 100),
   ("observationValue", .num 7)]

/-- A creation input that is valid for the Observation schema. -/
def validObservationInput : Obj :=
  [("stationKey", .str "KOUT"), ("stationName", .str "Out"),
   ("observationType", .str "temperature"), ("observationTime", .num 100),
   ("observationValue", .num 7)]

/-! ## Claim theorems -/

/-- C1: contrary to the claim, `selectAll` with a nil/absent conditions
argument does not succeed: `conditions && _generateWhereClause(conditions)`
leaves the where-clause `null` and the subsequent `.sql` access throws, for
any rows the table may hold, so no SELECT is issued and no instances are
returned. -/
theorem selectAll_nil_conditions_throws (rows : List Obj) :
    DbModel.selectAll observationClass none rows =
      .error "TypeError: Cannot read properties of null (reading sql)" := rfl

/-- C2: the round trip breaks at its final step.
`createFromObject` on a valid input succeeds and `sync` performs the INSERT,
but the unfiltered `selectAll()` (conditions defaulted to `null`) throws
instead of returning a result list, so no list containing the record is ever
produced. -/
theorem roundTrip_fails_at_unfiltered_selectAll :
    ∃ inst, DbModel.createFromObject observationClass validObservationInput = .ok inst ∧
      (∃ inst2 stmt, observationSync inst 200 (.num 1) = .ok (inst2, stmt) ∧
        stmt.kind = .insertStmt) ∧
      ∀ rows, DbModel.selectAll observationClass none rows =
        .error "TypeError: Cannot read properties of null (reading sql)" :=
  ⟨_, rfl, ⟨_, _, rfl, rfl⟩, fun _ => rfl⟩

/-- C4: evaluating `_update` on a populated Observation instance shows the
statement the code actually builds: every SET column is the descriptor object
rendered `[object Object]` (not the declared column name), the SET
placeholders are `:field` while the bindings are keyed `$field`, and the
`$id` placeholder in the WHERE clause has no binding at all. -/
theorem update_statement_malformed :
    ∃ stmt, DbModel.update observationClass observationInstance =
        .ok (observationInstance, stmt) ∧
      stmt.sql = "UPDATE `observation` SET `[object Object]` = :stationKey, `[object Object]` = :stationName, `[object Object]` = :observationType, `[object Object]` = :observationTime, `[object Object]` = :observationValue WHERE `[object Object]` = $id" ∧
      stmt.params =
        [("$stationKey", .str "K"), ("$stationName", .str "N"),
         ("$observationType", .str "temperature"), ("$observationTime", .num 100),
         ("$observationValue", .num 7)] ∧
      alistLookup "$id" stmt.params = none :=
  ⟨_, rfl, rfl, rfl, rfl⟩

/-- C5: compiling the IN-list condition `{ stationKey: ['A','B','C'] }` on the
Observation class yields a fragment whose column is the descriptor object
rendered `[object Object]`, whose parameter names are derived from the class
object's `name` (the anonymous decorator subclass, so `""` here) plus the
index — not from the column name — whose parameter keys lack the `$` prefix
the placeholders carry, and which never closes its parenthesis. -/
theorem in_list_compilation_malformed :
    lookupField observationClass "stationKey" =
      some ⟨"stationKey", ColumnTypes.string, false, false⟩ ∧
    generateWhereCondition observationClass.className
        ⟨"stationKey", ColumnTypes.string, false, false⟩
        (.arr [.str "A", .str "B", .str "C"]) =
      .ok ⟨"`[object Object]` IN ($0, $1, $2",
           [("0", .str "A"), ("1", .str "B"), ("2", .str "C")]⟩ :=
  ⟨rfl, rfl⟩

/-- C6: two IN-list conditions over distinct declared fields compile to the
same parameter names (class-name + index, not column-name + index), so the
spread-merge overwrites the first field's binding: the final clause holds a
single parameter `"0"` carrying only the second list's element. -/
theorem in_list_params_collide :
    generateWhereClause observationClass
        [("stationKey", .arr [.str "A"]), ("stationName", .arr [.str "B"])] =
      .ok ⟨"`[object Object]` IN ($0 AND `[object Object]` IN ($0",
           [("0", .str "B")]⟩ := rfl

/-- C7 counterexample: with two fields marked `primaryKey`, the
`Object.keys(...).find` loop in the `tableSchema` decorator stops at the
first such field, so the derived primary key is `"a"`, not the last-declared
`"b"` the claim names. -/
theorem primaryKey_last_not_kept :
    derivePrimaryKey
        [("a", ⟨"colA", ColumnTypes.number, false, true⟩),
         ("b", ⟨"colB", ColumnTypes.number, false, true⟩)] = some "a" ∧
      (some "a" : Option String) ≠ some "b" :=
  ⟨rfl, by decide⟩

/-- C7 (amended): when several fields are marked `primaryKey = true`, the
derived `primaryKeyProperty` is the FIRST such field in declaration order. -/
theorem primaryKey_first_wins (pre : List (String × ColumnDescriptor))
    (k : String) (d : ColumnDescriptor) (post : List (String × ColumnDescriptor))
    (hpre : ∀ p ∈ pre, p.2.primaryKey = false) (hd : d.primaryKey = true) :
    derivePrimaryKey (pre ++ (k, d) :: post) = some k := by
  induction pre with
  | nil => simp [derivePrimaryKey, hd]
  | cons p t ih =>
      have hp := hpre p (List.mem_cons_self _ _)
      simp only [List.cons_append, derivePrimaryKey, hp, if_false]
      exact ih (fun q hq => hpre q (List.mem_cons_of_mem _ hq))

/-- C7 witness: the amended rule at a concrete schema — a non-primary-key
field, then two primary-key fields; the first primary-key field wins. -/
theorem primaryKey_first_wins_witness :
    ((∀ p ∈ [("x", (⟨"colX", ColumnTypes.number, false, false⟩ : ColumnDescriptor))],
        p.2.primaryKey = false) ∧
      (⟨"colA", ColumnTypes.number, false, true⟩ : ColumnDescriptor).primaryKey = true) ∧
    derivePrimaryKey
        ([("x", ⟨"colX", ColumnTypes.number, false, false⟩)] ++
          ("a", ⟨"colA", ColumnTypes.number, false, true⟩) ::
            [("b", ⟨"colB", ColumnTypes.number, false, true⟩)]) = some "a" :=
  ⟨⟨by decide, rfl⟩,
   primaryKey_first_wins _ "a" _ _ (by decide) rfl⟩

/-- C3: `sync()` on an instance whose primary-key property is falsy performs
the INSERT and assigns the storage-generated id onto the instance; `sync()`
on the resulting instance (whose primary key is now the truthy generated id)
performs an UPDATE, not another INSERT. -/
theorem sync_insert_then_update (inst : Inst) (lastID : Value)
    (hnew : (instPk observationClass inst).falsy = true)
    (hid : lastID.falsy = false) :
    ∃ stmt1, DbModel.sync observationClass inst lastID =
        .ok (objSet inst "id" lastID, stmt1) ∧
      stmt1.kind = .insertStmt ∧
      instPk observationClass (objSet inst "id" lastID) = lastID ∧
      ∀ lastID2, ∃ stmt2,
        DbModel.sync observationClass (objSet inst "id" lastID) lastID2 =
          .ok (objSet inst "id" lastID, stmt2) ∧ stmt2.kind = .updateStmt := by
  have hpk : instPk observationClass (objSet inst "id" lastID) = lastID :=
    objGet_objSet_self inst "id" lastID
  have hins : ∃ stmt1, DbModel.insert observationClass inst lastID =
      .ok (objSet inst "id" lastID, stmt1) ∧ stmt1.kind = .insertStmt :=
    ⟨_, rfl, rfl⟩
  obtain ⟨stmt1, h1, hk1⟩ := hins
  refine ⟨stmt1, ?_, hk1, hpk, ?_⟩
  · unfold DbModel.sync
    rw [if_pos hnew]
    exact h1
  · intro lastID2
    have hupd : ∃ stmt2, DbModel.update observationClass (objSet inst "id" lastID) =
        .ok (objSet inst "id" lastID, stmt2) ∧ stmt2.kind = .updateStmt :=
      ⟨_, rfl, rfl⟩
    obtain ⟨stmt2, h2, hk2⟩ := hupd
    refine ⟨stmt2, ?_, hk2⟩
    unfold DbModel.sync
    rw [hpk, if_neg (by simp [hid])]
    exact h2

/-- C3 witness: a fresh (empty) instance with generated id 5. -/
theorem sync_insert_then_update_witness :
    ((instPk observationClass ([] : Inst)).falsy = true ∧
      (Value.num 5).falsy = false) ∧
    (∃ stmt1, DbModel.sync observationClass [] (.num 5) =
        .ok (objSet [] "id" (.num 5), stmt1) ∧
      stmt1.kind = .insertStmt ∧
      instPk observationClass (objSet [] "id" (.num 5)) = .num 5 ∧
      ∀ lastID2, ∃ stmt2,
        DbModel.sync observationClass (objSet [] "id" (.num 5)) lastID2 =
          .ok (objSet [] "id" (.num 5), stmt2) ∧ stmt2.kind = .updateStmt) :=
  ⟨⟨rfl, rfl⟩, sync_insert_then_update [] (.num 5) rfl rfl⟩

/-- C10: every `Observation.sync()` call overwrites `observationTime` with
the clock value `now` before persisting — the parameter bound for
`$observationTime` is the clock value, never the caller-supplied field — and
every other property except the primary key `id` is left unchanged on the
resulting instance. -/
theorem observationSync_overwrites_time (inst : Inst) (now : Int) (lastID : Value) :
    ∃ inst2 stmt, observationSync inst now lastID = .ok (inst2, stmt) ∧
      objGet inst2 "observationTime" = .num now ∧
      alistLookup "$observationTime" stmt.params = some (.num now) ∧
      ∀ k, k ≠ "observationTime" → k ≠ "id" → objGet inst2 k = objGet inst k := by
  have htime : objGet (objSet inst "observationTime" (.num now)) "observationTime"
      = .num now := objGet_objSet_self inst "observationTime" (.num now)
  have hparam : ∀ i : Inst,
      alistLookup "$observationTime"
        (getUpdatableFieldsQueryObject i (updatableFields observationClass)) =
        some (objGet i "observationTime") := fun _ => rfl
  by_cases h : (instPk observationClass
      (objSet inst "observationTime" (.num now))).falsy = true
  · have hins : ∃ stmt, DbModel.insert observationClass
        (objSet inst "observationTime" (.num now)) lastID =
        .ok (objSet (objSet inst "observationTime" (.num now)) "id" lastID, stmt) ∧
        stmt.params = getUpdatableFieldsQueryObject
          (objSet inst "observationTime" (.num now)) (updatableFields observationClass) :=
      ⟨_, rfl, rfl⟩
    obtain ⟨stmt, hs, hp⟩ := hins
    refine ⟨objSet (objSet inst "observationTime" (.num now)) "id" lastID, stmt,
      ?_, ?_, ?_, ?_⟩
    · unfold observationSync DbModel.sync
      rw [if_pos h]
      exact hs
    · rw [objGet_objSet_ne _ _ _ _ (by decide : "observationTime" ≠ "id")]
      exact htime
    · rw [hp, hparam, htime]
    · intro k hk1 hk2
      rw [objGet_objSet_ne _ _ _ _ hk2, objGet_objSet_ne _ _ _ _ hk1]
  · have hupd : ∃ stmt, DbModel.update observationClass
        (objSet inst "observationTime" (.num now)) =
        .ok (objSet inst "observationTime" (.num now), stmt) ∧
        stmt.params = getUpdatableFieldsQueryObject
          (objSet inst "observationTime" (.num now)) (updatableFields observationClass) :=
      ⟨_, rfl, rfl⟩
    obtain ⟨stmt, hs, hp⟩ := hupd
    refine ⟨objSet inst "observationTime" (.num now), stmt, ?_, htime, ?_, ?_⟩
    · unfold observationSync DbModel.sync
      rw [if_neg h]
      exact hs
    · rw [hp, hparam, htime]
    · intro k hk1 _
      rw [objGet_objSet_ne _ _ _ _ hk1]

/-! ## Condition-compiler rejection (C8) -/

/-- `op in WHERE_OPERATORS`. -/
def supportedOperator (op : String) : Bool :=
  op = "eq" || op = "gte" || op = "gt" || op = "lt" || op = "lte" || op = "between"

/-- Condition values in the documented shape: a scalar, an ordered list, or a
single-key operator object. -/
def condShapeOk : Value → Bool
  | .null => false
  | .obj kvs => kvs.length = 1
  | _ => true

/-- A condition entry the claim calls offending: its key is not a declared
field, or it is an operator object whose (first) operator name is not in the
operator table. -/
def condOffending (c : ModelClass) (kv : String × Value) : Bool :=
  (lookupField c kv.1).isNone ||
    (match kv.2 with
     | .obj ((op, _) :: _) => !supportedOperator op
     | _ => false)

/-- The unknown-field error text thrown by `_generateWhereClause`. -/
def unknownFieldMsg (c : ModelClass) (k : String) : String :=
  "Unknown field \"" ++ k ++ "\" on \"" ++ c.dbTable ++ "\""

/-- The unsupported-operator error text thrown by `_generateWhereCondition`. -/
def unsupportedOpMsg (op : String) : String :=
  "Unsupported comparison operator \"" ++ op ++ "\""

/-- `e` names an offense of `conds`: it is the unknown-field message for some
undeclared key of `conds` (naming field and table), or the
unsupported-operator message for some operator used in `conds` that is not in
the operator table. -/
def namesOffense (c : ModelClass) (conds : Obj) (e : String) : Prop :=
  (∃ k v, (k, v) ∈ conds ∧ lookupField c k = none ∧ e = unknownFieldMsg c k) ∨
  (∃ k op v rest, (k, Value.obj ((op, v) :: rest)) ∈ conds ∧
     supportedOperator op = false ∧ e = unsupportedOpMsg op)

theorem whereOperators_none_iff (op : String) (f : ColumnDescriptor) (v : Value) :
    whereOperators op f v = none ↔ supportedOperator op = false := by
  unfold whereOperators supportedOperator
  split_ifs <;> simp_all

theorem generateWhereCondition_error_char (n : String) (f : ColumnDescriptor)
    (v : Value) (e : String) (hs : condShapeOk v = true)
    (he : generateWhereCondition n f v = .error e) :
    ∃ op val rest, v = .obj ((op, val) :: rest) ∧ supportedOperator op = false ∧
      e = unsupportedOpMsg op := by
  cases v with
  | num a => exact absurd he (by simp [generateWhereCondition])
  | str a => exact absurd he (by simp [generateWhereCondition])
  | boolV a => exact absurd he (by simp [generateWhereCondition])
  | null => simp [condShapeOk] at hs
  | undefined => exact absurd he (by simp [generateWhereCondition])
  | arr vs => exact absurd he (by simp [generateWhereCondition])
  | obj kvs =>
      cases kvs with
      | nil => simp [condShapeOk] at hs
      | cons kv rest =>
          obtain ⟨op, val⟩ := kv
          simp only [generateWhereCondition, List.head?] at he
          cases hw : whereOperators op f val with
          | some wc => rw [hw] at he; exact absurd he (by simp)
          | none =>
              rw [hw] at he
              simp only [Except.error.injEq] at he
              exact ⟨op, val, rest, rfl,
                (whereOperators_none_iff op f val).mp hw, he.symm⟩

theorem whereStep_error_char (c : ModelClass) (acc : WhereClause)
    (kv : String × Value) (e : String) (hs : condShapeOk kv.2 = true)
    (he : whereStep c acc kv = .error e) :
    (lookupField c kv.1 = none ∧ e = unknownFieldMsg c kv.1) ∨
    (∃ op val rest, kv.2 = .obj ((op, val) :: rest) ∧
      supportedOperator op = false ∧ e = unsupportedOpMsg op) := by
  unfold whereStep at he
  split at he
  · split at he
    · exact absurd he (by simp)
    · rename_i field hfield e2 hge
      simp only [Except.error.injEq] at he
      exact Or.inr (he ▸ generateWhereCondition_error_char _ _ _ _ hs hge)
  · rename_i hnone
    simp only [Except.error.injEq] at he
    exact Or.inl ⟨hnone, he.symm⟩

theorem whereStep_ok_not_offending (c : ModelClass) (acc : WhereClause)
    (kv : String × Value) (wc : WhereClause)
    (hok : whereStep c acc kv = .ok wc) : condOffending c kv = false := by
  unfold whereStep at hok
  split at hok
  · rename_i field hfield
    split at hok
    · rename_i wc2 hgw
      unfold condOffending
      rw [hfield]
      simp only [Option.isNone_some, Bool.false_or]
      cases hv : kv.2 with
      | obj kvs =>
          cases kvs with
          | nil => rfl
          | cons hd tl =>
              obtain ⟨op, val⟩ := hd
              cases hsup : supportedOperator op with
              | true => simp [hsup]
              | false =>
                  rw [hv] at hgw
                  simp only [generateWhereCondition, List.head?] at hgw
                  rw [(whereOperators_none_iff op field val).mpr hsup] at hgw
                  exact absurd hgw (by simp)
      | num a => rfl
      | str a => rfl
      | boolV a => rfl
      | null => rfl
      | undefined => rfl
      | arr vs => rfl
    · exact absurd hok (by simp)
  · exact absurd hok (by simp)

theorem foldlM_whereStep_offending (c : ModelClass) :
    ∀ conds : Obj, (∀ kv ∈ conds, condShapeOk kv.2 = true) →
      (∃ kv ∈ conds, condOffending c kv = true) →
      ∀ acc, ∃ e, List.foldlM (whereStep c) acc conds = .error e ∧
        namesOffense c conds e := by
  intro conds
  induction conds with
  | nil =>
      intro _ hoff _
      obtain ⟨kv, hmem, _⟩ := hoff
      exact absurd hmem (List.not_mem_nil kv)
  | cons kv rest ih =>
      intro hwf hoff acc
      cases hstep : whereStep c acc kv with
      | error e =>
          refine ⟨e, ?_, ?_⟩
          · rw [List.foldlM_cons, hstep]
            rfl
          · cases whereStep_error_char c acc kv e
                (hwf kv (List.mem_cons_self _ _)) hstep with
            | inl h =>
                exact Or.inl ⟨kv.1, kv.2,
                  by rw [Prod.mk.eta]; exact List.mem_cons_self _ _, h.1, h.2⟩
            | inr h =>
                obtain ⟨op, val, r2, hv, hsup, hee⟩ := h
                refine Or.inr ⟨kv.1, op, val, r2, ?_, hsup, hee⟩
                rw [← hv, Prod.mk.eta]
                exact List.mem_cons_self _ _
      | ok acc2 =>
          have hnot : condOffending c kv = false :=
            whereStep_ok_not_offending c acc kv acc2 hstep
          have hoff2 : ∃ kv2 ∈ rest, condOffending c kv2 = true := by
            obtain ⟨kv2, hmem, hof⟩ := hoff
            cases List.mem_cons.mp hmem with
            | inl heq =>
                rw [heq] at hof
                rw [hof] at hnot
                exact absurd hnot (by simp)
            | inr hm => exact ⟨kv2, hm, hof⟩
          obtain ⟨e, he, hn⟩ :=
            ih (fun q hq => hwf q (List.mem_cons_of_mem _ hq)) hoff2 acc2
          refine ⟨e, ?_, ?_⟩
          · rw [List.foldlM_cons, hstep]
            exact he
          · cases hn with
            | inl h =>
                obtain ⟨k, v, hm, h1, h2⟩ := h
                exact Or.inl ⟨k, v, List.mem_cons_of_mem _ hm, h1, h2⟩
            | inr h =>
                obtain ⟨k, op, v, r2, hm, h1, h2⟩ := h
                exact Or.inr ⟨k, op, v, r2, List.mem_cons_of_mem _ hm, h1, h2⟩

/-- C8: for any verified model class, any conditions mapping in the
documented shape that contains an undeclared key or an unsupported operator
makes the compiler throw; the same error propagates out of `selectAll` (so no
statement reaches the driver), and the error text names an offending
undeclared field together with the table, or an offending operator. -/
theorem offending_conditions_reject (c : ModelClass) (conds : Obj) (rows : List Obj)
    (hv : verifyFields c false = .ok ())
    (hwf : ∀ kv ∈ conds, condShapeOk kv.2 = true)
    (hoff : ∃ kv ∈ conds, condOffending c kv = true) :
    ∃ e, generateWhereClause c conds = .error e ∧
      DbModel.selectAll c (some conds) rows = .error e ∧
      namesOffense c conds e := by
  obtain ⟨e, he, hn⟩ := foldlM_whereStep_offending c conds hwf hoff ⟨"", []⟩
  have hg : generateWhereClause c conds = .error e := he
  refine ⟨e, hg, ?_, hn⟩
  have hsel : DbModel.selectAll c (some conds) rows =
      match generateWhereClause c conds with
      | .error e2 => .error e2
      | .ok wc =>
          .ok (⟨.selectStmt,
                "SELECT * FROM `" ++ c.dbTable ++ "`" ++
                  (if wc.sql = "" then "" else " WHERE " ++ wc.sql),
                wc.params⟩,
               rows.map (createThisFromRow c)) := by
    unfold DbModel.selectAll
    rw [hv]
  rw [hsel, hg]

/-- C8 witness: the condition `{ bogus: 1 }` on the Observation class. -/
theorem offending_conditions_reject_witness :
    (verifyFields observationClass false = .ok () ∧
      (∀ kv ∈ ([("bogus", Value.num 1)] : Obj), condShapeOk kv.2 = true) ∧
      (∃ kv ∈ ([("bogus", Value.num 1)] : Obj),
        condOffending observationClass kv = true)) ∧
    (∃ e, generateWhereClause observationClass [("bogus", Value.num 1)] = .error e ∧
      DbModel.selectAll observationClass (some [("bogus", Value.num 1)]) [] = .error e ∧
      namesOffense observationClass [("bogus", Value.num 1)] e) :=
  ⟨⟨rfl, by decide, by decide⟩,
   offending_conditions_reject observationClass [("bogus", Value.num 1)] [] rfl
     (by decide) (by decide)⟩

/-! ## createFromObject validation (C9) -/

/-- One declared field's validation verdict, following the amended rule: a
field present in the input and not nullable (the primary key included) is
checked against its declared type; a field absent, not nullable and not the
primary key is a missing-value failure; a present nullable field is not
checked. -/
def fieldErrors (pk : Option String) (obj : Obj) (p : String × ColumnDescriptor) :
    List String :=
  if objHas obj p.1 && !p.2.nullable then
    if !DbModel.typeValid p.2.type (objGet obj p.1) then
      ["Expected type " ++ p.2.type.display ++ " for column \"" ++
       p.1 ++ "\". Got: " ++ valueDisplay (objGet obj p.1)]
    else []
  else if !objHas obj p.1 && !p.2.nullable && decide (pk ≠ some p.1) then
    ["Expected value for column \"" ++ p.1 ++ "\""]
  else []

/-- The full validation batch: every field's verdict, in declaration order,
collected without short-circuiting. -/
def validationErrors (c : ModelClass) (obj : Obj) : List String :=
  ((fieldsOf c).map (fieldErrors c.dbPrimaryKey obj)).flatten

/-- The instance built on success: every declared property copied from the
input (absent ones as `undefined`). -/
def copyDeclaredFields (c : ModelClass) (obj : Obj) : Inst :=
  List.foldl (fun i p => objSet i p.1 (objGet obj p.1)) [] (fieldsOf c)

theorem validateFieldStep_eq (pk : Option String) (obj : Obj) (errs : List String)
    (p : String × ColumnDescriptor) :
    DbModel.validateFieldStep pk obj errs p = errs ++ fieldErrors pk obj p := by
  unfold DbModel.validateFieldStep fieldErrors
  split_ifs <;> simp

theorem foldl_validateFieldStep (pk : Option String) (obj : Obj) :
    ∀ (l : List (String × ColumnDescriptor)) (errs : List String),
      List.foldl (DbModel.validateFieldStep pk obj) errs l =
        errs ++ (l.map (fieldErrors pk obj)).flatten := by
  intro l
  induction l with
  | nil => intro errs; simp
  | cons p t ih =>
      intro errs
      rw [List.foldl_cons, validateFieldStep_eq, ih]
      simp [List.append_assoc]

/-- C9 counterexample: an input in which every declared field is present and
every NON-primary-key field passes its declared-type check — so under the
claim (which excludes the primary key from checking and reports only missing
or type failures) the construction must succeed — yet the code type-checks
the present primary key `id` too, and fails the whole operation on its
non-numeric value. -/
theorem createFromObject_checks_primary_key :
    (∀ p ∈ observationSchema, objHas
      [("id", Value.str "abc"), ("stationKey", Value.str "KOUT"),
       ("stationName", Value.str "Out"), ("observationType", Value.str "temperature"),
       ("observationTime", Value.num 100), ("observationValue", Value.num 7)] p.1 = true) ∧
    (∀ p ∈ observationSchema, p.1 ≠ "id" →
      DbModel.typeValid p.2.type (objGet
        [("id", Value.str "abc"), ("stationKey", Value.str "KOUT"),
         ("stationName", Value.str "Out"), ("observationType", Value.str "temperature"),
         ("observationTime", Value.num 100), ("observationValue", Value.num 7)] p.1) = true) ∧
    DbModel.createFromObject observationClass
      [("id", Value.str "abc"), ("stationKey", Value.str "KOUT"),
       ("stationName", Value.str "Out"), ("observationType", Value.str "temperature"),
       ("observationTime", Value.num 100), ("observationValue", Value.num 7)] =
      .error ["Expected type number for column \"id\". Got: abc"] :=
  ⟨by decide, by decide, rfl⟩

/-- C9 (amended): for every model class and input, `createFromObject` checks
every declared non-nullable field present in the input — the primary key
included — against its declared type, skips present nullable fields, records
a missing-value failure for every absent field that is neither nullable nor
the primary key, collects every field's failure in declaration order without
short-circuiting, and fails as exactly that batch when it is non-empty (no
instance constructed), otherwise returns the instance with every declared
property copied from the input. -/
theorem createFromObject_validation_behavior (c : ModelClass) (obj : Obj) :
    DbModel.createFromObject c obj =
      if validationErrors c obj = [] then .ok (copyDeclaredFields c obj)
      else .error (validationErrors c obj) := by
  unfold DbModel.createFromObject copyDeclaredFields validationErrors
  rw [foldl_validateFieldStep]
  simp
